import Mathlib

/-!
A shallow embedding of `src/platformstats.c` (the platformstats probe for
embedded Linux boards): the two-sample delta CPU-load calculation, the
circular-buffer moving average used for power telemetry, the positional
parsing of `/proc/meminfo` and `/proc/stat`, and hwmon device resolution.

Modelling conventions:
* C `long` counters read from `/proc/stat` and `/proc/meminfo` are
  non-negative kernel counters and are modelled as `ℕ`.
* C `double` arithmetic in `calculate_load` is modelled exactly over `ℚ`
  (where division by zero yields the junk value `0` instead of NaN/Inf).
* C truncating `long` division is `Int.tdiv`.
* A pseudo-file is passed in explicitly; `none` stands for a path that
  cannot be opened (`fopen`/`opendir` returning NULL), and the `errno`
  observed on such a failure is passed as a parameter.
* The helpers `skip_lines`, `movingAvg` and `get_sys_abs_path` live in
  `utils.c`, which is not among the sources here; where a definition is
  reconstructed from the specification instead, its doc comment starts with
  "Modelled from the spec".
-/

/-- Embedding of `struct cpustat`: the seven per-CPU counters read from
`/proc/stat` (`total_util` is a derived field, not part of the raw sample). -/
structure Cpustat where
  user : ℕ
  nice : ℕ
  system : ℕ
  idle : ℕ
  iowait : ℕ
  irq : ℕ
  softirq : ℕ
deriving DecidableEq

/-- Embedding of `calculate_load` (platformstats.c:110-131).  The C function
computes in `double`; this embedding evaluates the same expressions exactly
in `ℚ`. -/
def calculate_load (prev curr : Cpustat) : ℚ :=
  let idle_prev : ℕ := prev.idle + prev.iowait
  let idle_curr : ℕ := curr.idle + curr.iowait
  let nidle_prev : ℕ := prev.user + prev.nice + prev.system + prev.irq + prev.softirq
  let nidle_curr : ℕ := curr.user + curr.nice + curr.system + curr.irq + curr.softirq
  let total_prev : ℕ := idle_prev + nidle_prev
  let total_curr : ℕ := idle_curr + nidle_curr
  let total_delta : ℚ := (total_curr : ℚ) - (total_prev : ℚ)
  let idle_delta : ℚ := (idle_curr : ℚ) - (idle_prev : ℚ)
  (1000 * (total_delta - idle_delta) / total_delta + 1) / 10

/-- The spec's `idle_delta`, written as the spec states it:
`(curr.idle + curr.iowait) - (prev.idle + prev.iowait)` (as an exact
rational, since the C code computes the difference in `double`). -/
def spec_idle_delta (prev curr : Cpustat) : ℚ :=
  ((curr.idle : ℚ) + (curr.iowait : ℚ)) - ((prev.idle : ℚ) + (prev.iowait : ℚ))

/-- The spec's `total_delta`: the delta of all seven counters, i.e. it
additionally includes the deltas of user, nice, system, irq and softirq. -/
def spec_total_delta (prev curr : Cpustat) : ℚ :=
  ((curr.user : ℚ) + (curr.nice : ℚ) + (curr.system : ℚ) + (curr.irq : ℚ) +
      (curr.softirq : ℚ) + (curr.idle : ℚ) + (curr.iowait : ℚ)) -
    ((prev.user : ℚ) + (prev.nice : ℚ) + (prev.system : ℚ) + (prev.irq : ℚ) +
      (prev.softirq : ℚ) + (prev.idle : ℚ) + (prev.iowait : ℚ))

/-- Error taxonomy of the spec's §7 for the load calculator. -/
inductive LoadError where
  | invalidState
deriving DecidableEq

/-- Modelled from the spec: the checked reimplementation contract of §4.4 —
"Undefined when `total_delta == 0` (division by zero): reimplementation must
fail with a DivideByZero/InvalidState condition rather than silently
producing NaN or infinity."  This guard is absent from the C source, whose
`calculate_load` divides unconditionally. -/
def utilizationChecked (prev curr : Cpustat) : Except LoadError ℚ :=
  if spec_total_delta prev curr = 0 then .error .invalidState
  else .ok (calculate_load prev curr)

/-- A line of a line-oriented pseudo-file such as `/proc/meminfo`: a label
token and the integer value following it. -/
abbrev ProcLine := String × ℕ

/-- Modelled from the spec: `skip_lines` lives in `utils.c`, which is not
among the sources here.  Per §4.6 the meminfo reads land on lines 0, 2, 4
(RAM group), 14, 16 (swap) and 41, 43 (CMA): a `fscanf` of one
`<label> <value>` pair consumes one full line, and `skip_lines fp n`
advances past `n` further whole lines.  The file position is a line index. -/
def skip_lines (pos : ℕ) (n : ℕ) : ℕ := pos + n

/-- One `fscanf(fp, " %s %ld", buff, &val)` step under the §4.6 line model:
return the integer of the line at the cursor and advance the cursor. -/
def scan_line (file : List ProcLine) (pos : ℕ) : ℕ × ℕ :=
  ((file.getD pos ("", 0)).2, pos + 1)

/-- Embedding of `get_ram_memory_utilization` (platformstats.c:383-413):
on open failure return `errno`; otherwise read MemTotal, skip one line, read
MemFree, skip one line, read MemAvailable. -/
def get_ram_memory_utilization (meminfo : Option (List ProcLine)) (e : ℕ) :
    Except ℕ (ℕ × ℕ × ℕ) :=
  match meminfo with
  | none => .error e
  | some file =>
    let r0 := scan_line file 0
    let r1 := scan_line file (skip_lines r0.2 1)
    let r2 := scan_line file (skip_lines r1.2 1)
    .ok (r0.1, r1.1, r2.1)

/-- Embedding of `get_swap_memory_utilization` (platformstats.c:542-568):
on open failure return `errno`; otherwise skip 14 lines, read SwapTotal,
skip one line, read SwapFree. -/
def get_swap_memory_utilization (meminfo : Option (List ProcLine)) (e : ℕ) :
    Except ℕ (ℕ × ℕ) :=
  match meminfo with
  | none => .error e
  | some file =>
    let r0 := scan_line file (skip_lines 0 14)
    let r1 := scan_line file (skip_lines r0.2 1)
    .ok (r0.1, r1.1)

/-- Embedding of `get_cma_utilization` (platformstats.c:467-493):
on open failure return `errno`; otherwise skip 41 lines, read CmaTotal,
skip one line, read CmaFree. -/
def get_cma_utilization (meminfo : Option (List ProcLine)) (e : ℕ) :
    Except ℕ (ℕ × ℕ) :=
  match meminfo with
  | none => .error e
  | some file =>
    let r0 := scan_line file (skip_lines 0 41)
    let r1 := scan_line file (skip_lines r0.2 1)
    .ok (r0.1, r1.1)

/-- A `/proc/stat` line: a label token followed by integer counters. -/
abbrev StatLine := String × List ℕ

/-- Embedding of `get_stats` (platformstats.c:44-72): on open failure return
`errno`; otherwise `skip_lines(fp, cpu_id + 1)` and then
`fscanf(fp, "%s %ld %ld %ld %ld %ld %ld %ld", ...)`: discard the label token
and store the next seven counters as user, nice, system, idle, iowait, irq,
softirq, in that order.  (`skip_lines` from the start of the file skips that
many whole lines, so the read lands on line `cpu_id + 1`.) -/
def get_stats (procStat : Option (List StatLine)) (e : ℕ) (cpu_id : ℕ) :
    Except ℕ Cpustat :=
  match procStat with
  | none => .error e
  | some lines =>
    let line := lines.getD (skip_lines 0 (cpu_id + 1)) ("", [])
    let t := line.2
    .ok ⟨t.getD 0 0, t.getD 1 0, t.getD 2 0, t.getD 3 0, t.getD 4 0,
         t.getD 5 0, t.getD 6 0⟩

/-- Outcome of `read_int_sysfs_entry` (platformstats.c:215-233).  When
`fopen` fails, the C function prints a message but does not return: it falls
through to `fscanf(NULL, ...)` and `fclose(NULL)`, a null-pointer
dereference (undefined behavior that crashes the process).  `nullDeref`
records that fall-through. -/
inductive ReadIntOutcome where
  | ok (v : ℤ)
  | nullDeref
deriving DecidableEq

/-- Embedding of `read_int_sysfs_entry`: `file` is the parsed integer
content of the target sysfs file, `none` when the path cannot be opened. -/
def read_int_sysfs_entry (file : Option ℤ) : ReadIntOutcome :=
  match file with
  | some v => .ok v
  | none => .nullDeref

/-- The hwmon corner of sysfs: the entry names under `/sys/class/hwmon`
(`none` when `opendir` fails, with `errno` the error observed then), and the
content of each `/sys/class/hwmon/hwmon<id>/name` file (`none` when that
file cannot be opened). -/
structure HwmonFs where
  rootEntries : Option (List String)
  errno : ℕ
  nameFile : ℕ → Option String

/-- Embedding of the C library test `strstr(hay, needle) != NULL`: does
`needle` occur as a contiguous substring of `hay`? -/
def contains_sub (needle : List Char) : List Char → Bool
  | [] => needle.isEmpty
  | c :: t => needle.isPrefixOf (c :: t) || contains_sub needle t

/-- Embedding of `count_hwmon_reg_devices` (platformstats.c:612-639): if the
root directory cannot be opened, it returns `errno` on the same `int`
channel that otherwise carries the count; otherwise it counts the entries
whose name contains the substring "hwmon". -/
def count_hwmon_reg_devices (fs : HwmonFs) : ℤ :=
  match fs.rootEntries with
  | none => (fs.errno : ℤ)
  | some entries =>
      ((entries.filter fun d => contains_sub "hwmon".toList d.toList).length : ℤ)

/-- Embedding of `read_char_sysfs_entry` (platformstats.c:280-303) as used
on `hwmon<id>/name`: on success the caller's buffer receives the device
name; on open failure the function returns `errno` without touching the
buffer, so the caller keeps its previous buffer contents. -/
def read_char_sysfs_entry (fs : HwmonFs) (id : ℕ) (buf : String) : String :=
  match fs.nameFile id with
  | some s => s
  | none => buf

/-- Embedding of the `for(hwmon_id = 0; hwmon_id < num_hwmon_devices;
hwmon_id++)` loop of `get_device_hwmon_id` (platformstats.c:665-679).
`buf` is the `device_name` buffer (uninitialized at entry in the C source,
overwritten by each successful name read).  The second component of the
result is a ghost counter of how many device ids the loop probed. -/
def hwmon_scan (fs : HwmonFs) (name : String) (n : ℕ) (buf : String) (i : ℕ) :
    ℤ × ℕ :=
  if i < n then
    let dn := read_char_sysfs_entry fs i buf
    if name = dn then ((i : ℤ), i + 1)
    else hwmon_scan fs name n dn (i + 1)
  else (-1, i)
termination_by n - i
decreasing_by omega

/-- Embedding of `get_device_hwmon_id` (platformstats.c:653-682): take the
raw `int` returned by `count_hwmon_reg_devices` as the device count (even
when it actually is an errno), then scan ids `0 .. count-1` in increasing
order, comparing each read name against the target with `strcmp` (exact,
case-sensitive); the first match returns that id, otherwise `-1`.  `buf0`
models the uninitialized `device_name` buffer; the `ℕ` component of the
result is the ghost probe counter of `hwmon_scan`. -/
def get_device_hwmon_id (fs : HwmonFs) (name : String) (buf0 : String) : ℤ × ℕ :=
  hwmon_scan fs name (count_hwmon_reg_devices fs).toNat buf0 0

/-- Modelled from the spec: `movingAvg` lives in `utils.c`, which is not
among the sources here.  Per §4.5, a push overwrites the slot at the cursor,
updates the running sum by `sum += value - old` (the slot holds 0 if never
populated, matching `calloc`), and returns `sum / len`, where `len` is the
logical length already counting the new element (the C caller passes it so)
and the division is C truncating `long` division.  Returns the updated
array, the updated sum, and the returned average. -/
def movingAvg (arr : List ℤ) (sum : ℤ) (pos : ℕ) (len : ℕ) (num : ℤ) :
    List ℤ × ℤ × ℤ :=
  let old := arr.getD pos 0
  let sum2 := sum + num - old
  (arr.set pos num, sum2, sum2.tdiv (len : ℤ))

/-- Modelled from the spec (§3, §4.5): the moving-average state that the C
code keeps in `powerarr`/`currarr`/`volarr` plus `pos`/`len`/`*_sum`,
packaged as one owned struct as §9 directs.  `len` is the logical length
(count of valid samples), `sum` the running sum. -/
structure MovingAverageBuffer where
  capacity : ℕ
  data : List ℤ
  cursor : ℕ
  len : ℕ
  sum : ℤ
deriving DecidableEq

/-- Modelled from the spec (§4.5 `push`): delegate to `movingAvg` with the
incremented, capacity-saturated logical length, then advance the cursor
modulo capacity.  Returns the updated buffer and the average. -/
def MovingAverageBuffer.push (b : MovingAverageBuffer) (v : ℤ) :
    MovingAverageBuffer × ℤ :=
  let len2 := min (b.len + 1) b.capacity
  let r := movingAvg b.data b.sum b.cursor len2 v
  (⟨b.capacity, r.1, (b.cursor + 1) % b.capacity, len2, r.2.1⟩, r.2.2)

/-- Push a whole list of values, collecting the returned averages in
order. -/
def MovingAverageBuffer.pushAll (b : MovingAverageBuffer) :
    List ℤ → MovingAverageBuffer × List ℤ
  | [] => (b, [])
  | v :: vs =>
    let r := b.push v
    let rest := r.1.pushAll vs
    (rest.1, r.2 :: rest.2)

/-- Error taxonomy of the spec's §7 for buffer construction. -/
inductive BufferError where
  | zeroCapacity
deriving DecidableEq

/-- Modelled from the spec (§4.5): "Must support capacity == 0 only as a
guarded/rejected construction (division by zero otherwise): reimplementation
must validate capacity > 0 at construction."  A fresh buffer has zeroed
backing storage (`calloc`), cursor 0, logical length 0 and sum 0. -/
def mkMovingAverageBuffer (capacity : ℕ) : Except BufferError MovingAverageBuffer :=
  if capacity = 0 then .error .zeroCapacity
  else .ok ⟨capacity, List.replicate capacity 0, 0, 0, 0⟩

/-- The per-iteration state of `print_ina260_power_info`
(platformstats.c:705-753): one shared write cursor `pos` and one shared
logical length `len`, and the three backing arrays with their running
sums. -/
structure InaState where
  pos : ℕ
  len : ℕ
  powerarr : List ℤ
  power_sum : ℤ
  currarr : List ℤ
  curr_sum : ℤ
  volarr : List ℤ
  vol_sum : ℤ

/-- Initial state of the sampling loop: `pos = 0`, `len = pos + 1 = 1`, and
the three arrays `calloc`ed to `duration` zeroes. -/
def ina_init (duration : ℕ) : InaState :=
  ⟨0, 1, List.replicate duration 0, 0, List.replicate duration 0, 0,
    List.replicate duration 0, 0⟩

/-- One iteration of the sampling loop (platformstats.c:728-753), fed the
three sysfs reads of that interval: push `total_power/1000` (C truncating
division), `total_current` and `total_voltage` through `movingAvg` with the
shared `pos` and `len`, then advance `pos` (resetting to 0 once it reaches
`duration`) and the saturating `len`.  Returns the new state and the three
averages printed in that iteration. -/
def ina_step (duration : ℕ) (st : InaState)
    (total_power total_current total_voltage : ℤ) : InaState × (ℤ × ℤ × ℤ) :=
  let rp := movingAvg st.powerarr st.power_sum st.pos st.len (total_power.tdiv 1000)
  let rc := movingAvg st.currarr st.curr_sum st.pos st.len total_current
  let rv := movingAvg st.volarr st.vol_sum st.pos st.len total_voltage
  let pos2 := if duration ≤ st.pos + 1 then 0 else st.pos + 1
  let len2 := if duration < st.len + 1 then duration else st.len + 1
  (⟨pos2, len2, rp.1, rp.2.1, rc.1, rc.2.1, rv.1, rv.2.1⟩,
    (rp.2.2, rc.2.2, rv.2.2))

/-- Run the first `k` iterations of the sampling loop against the sample
streams `p c v : ℕ → ℤ` (the sysfs reads of each interval), collecting the
printed averages in order. -/
def ina_run (duration : ℕ) (p c v : ℕ → ℤ) : ℕ → InaState × List (ℤ × ℤ × ℤ)
  | 0 => (ina_init duration, [])
  | k + 1 =>
    let r := ina_run duration p c v k
    let s := ina_step duration r.1 (p k) (c k) (v k)
    (s.1, r.2 ++ [s.2])

/-- A 44-line meminfo fixture: line `i` carries label `Li` and value
`100 + i`, so each field's value reveals which line it was read from. -/
def memfixture : List ProcLine :=
  (List.range 44).map fun i => (String.append "L" (toString i), 100 + i)

/-- A two-device hwmon directory fixture: `hwmon0` is named "foo" and
`hwmon1` is named "ina260_u14" (the spec's §8 synthetic directory set). -/
def hwmonFixture : HwmonFs :=
  ⟨some ["hwmon0", "hwmon1"], 0, fun i => ["foo", "ina260_u14"].get? i⟩

/-- A hwmon filesystem whose root cannot be opened: `opendir` fails with
errno 2 (ENOENT) and every `name` file is absent as well. -/
def hwmonAbsentFixture : HwmonFs :=
  ⟨none, 2, fun _ => none⟩

/-- C1: for every pair of CpuStat samples whose total delta is strictly
positive, `calculate_load` returns exactly
`(1000 * (total_delta - idle_delta) / total_delta + 1) / 10`, with
`idle_delta = (curr.idle + curr.iowait) - (prev.idle + prev.iowait)` and
`total_delta` additionally including the deltas of user, nice, system, irq
and softirq; the `+1` bias term and the `/10` scaling are preserved
bit-for-bit. -/
theorem calculate_load_matches_spec_formula (prev curr : Cpustat)
    (h : 0 < spec_total_delta prev curr) :
    calculate_load prev curr =
      (1000 * (spec_total_delta prev curr - spec_idle_delta prev curr) /
          spec_total_delta prev curr + 1) / 10 := by
  unfold calculate_load spec_total_delta spec_idle_delta
  push_cast
  ring_nf

/-- Witness for C1 at the spec's §8 example: prev = {user 100, system 50,
idle 800, iowait 50}, curr = prev with user += 10. -/
theorem calculate_load_matches_spec_formula_witness :
    0 < spec_total_delta ⟨100, 0, 50, 800, 50, 0, 0⟩ ⟨110, 0, 50, 800, 50, 0, 0⟩ ∧
      calculate_load ⟨100, 0, 50, 800, 50, 0, 0⟩ ⟨110, 0, 50, 800, 50, 0, 0⟩ =
        (1000 * (spec_total_delta ⟨100, 0, 50, 800, 50, 0, 0⟩ ⟨110, 0, 50, 800, 50, 0, 0⟩ -
            spec_idle_delta ⟨100, 0, 50, 800, 50, 0, 0⟩ ⟨110, 0, 50, 800, 50, 0, 0⟩) /
          spec_total_delta ⟨100, 0, 50, 800, 50, 0, 0⟩ ⟨110, 0, 50, 800, 50, 0, 0⟩ + 1) / 10 :=
  ⟨by norm_num [spec_total_delta],
    calculate_load_matches_spec_formula ⟨100, 0, 50, 800, 50, 0, 0⟩
      ⟨110, 0, 50, 800, 50, 0, 0⟩ (by norm_num [spec_total_delta])⟩

/-- C3 counterexample: with prev = curr = all-zero stats, `total_delta = 0`,
yet the source `calculate_load` does not fail with any error: it has no
error channel at all and performs the division with zero denominator,
returning a plain number (the exact-arithmetic junk value `1/10` here; in C
`double` arithmetic the same input yields NaN). -/
theorem calculate_load_zero_total_delta_returns_value :
    spec_total_delta ⟨0, 0, 0, 0, 0, 0, 0⟩ ⟨0, 0, 0, 0, 0, 0, 0⟩ = 0 ∧
      calculate_load ⟨0, 0, 0, 0, 0, 0, 0⟩ ⟨0, 0, 0, 0, 0, 0, 0⟩ = 1 / 10 := by
  constructor
  · norm_num [spec_total_delta]
  · norm_num [calculate_load]

/-- C3 amended: the source `calculate_load` divides unconditionally, so for
`total_delta = 0` it produces a junk value (NaN/Inf in C doubles) rather
than failing; the spec-mandated checked reimplementation
`utilizationChecked` is the one that fails with InvalidState whenever
`total_delta = 0` and succeeds with the §4.4 formula value otherwise —
being `Except`-valued over `ℚ`, it can never return NaN or an infinity. -/
theorem utilizationChecked_invalid_state (prev curr : Cpustat) :
    (spec_total_delta prev curr = 0 →
      utilizationChecked prev curr = .error .invalidState) ∧
    (spec_total_delta prev curr ≠ 0 →
      utilizationChecked prev curr = .ok (calculate_load prev curr)) := by
  constructor <;> intro h <;> simp [utilizationChecked, h]

/-- Witness for C3's amended theorem: both branches at concrete samples. -/
theorem utilizationChecked_invalid_state_witness :
    utilizationChecked ⟨0, 0, 0, 0, 0, 0, 0⟩ ⟨0, 0, 0, 0, 0, 0, 0⟩ =
        .error .invalidState ∧
      utilizationChecked ⟨0, 0, 0, 0, 0, 0, 0⟩ ⟨1, 0, 0, 0, 0, 0, 0⟩ =
        .ok (calculate_load ⟨0, 0, 0, 0, 0, 0, 0⟩ ⟨1, 0, 0, 0, 0, 0, 0⟩) :=
  ⟨(utilizationChecked_invalid_state _ _).1 (by norm_num [spec_total_delta]),
    (utilizationChecked_invalid_state _ _).2 (by norm_num [spec_total_delta])⟩

/-- C4: a MovingAverageBuffer of capacity 3 starting empty, fed the values
[10, 20, 30, 40], returns the averages [10, 15, 20, 30] in order; each push
returns the running sum divided (truncating) by the current logical length,
the length saturates at the capacity, and once full the oldest element (10,
at slot 0) is evicted from the sum before 40 is added. -/
theorem movingAverageBuffer_cap3_push_sequence :
    mkMovingAverageBuffer 3 = .ok ⟨3, [0, 0, 0], 0, 0, 0⟩ ∧
      (MovingAverageBuffer.pushAll ⟨3, [0, 0, 0], 0, 0, 0⟩ [10, 20, 30, 40]).2 =
        [10, 15, 20, 30] ∧
      (MovingAverageBuffer.pushAll ⟨3, [0, 0, 0], 0, 0, 0⟩ [10, 20, 30, 40]).1 =
        ⟨3, [40, 20, 30], 1, 3, 90⟩ := by
  refine ⟨rfl, rfl, rfl⟩

/-- C5: on a path that cannot be opened, `read_int_sysfs_entry` does not
signal an I/O error and return — the C code prints a message and then falls
through to `fscanf(NULL, ...)`/`fclose(NULL)`, a null-pointer dereference
that crashes the process, so the report sections that would run after it
never execute. -/
theorem read_int_sysfs_entry_missing_path_null_deref :
    read_int_sysfs_entry none = .nullDeref := rfl

/-- C8: constructing a MovingAverageBuffer with capacity 0 fails at
construction time with an explicit error, and a successfully constructed
buffer's first push cannot fail: it returns the pushed value itself (sum
`v` divided by logical length 1). -/
theorem mkMovingAverageBuffer_zero_capacity :
    mkMovingAverageBuffer 0 = .error .zeroCapacity ∧
      ∀ cap b, mkMovingAverageBuffer cap = .ok b →
        ∀ v : ℤ, (b.push v).2 = v := by
  refine ⟨rfl, fun cap b hb v => ?_⟩
  unfold mkMovingAverageBuffer at hb
  split at hb
  · exact absurd hb (by simp)
  · next hcap =>
    cases hb
    simp [MovingAverageBuffer.push, movingAvg, List.getD, Nat.one_le_iff_ne_zero.mpr hcap]

/-- Witness for C8: capacity 3, first push of 7 returns 7. -/
theorem mkMovingAverageBuffer_zero_capacity_witness :
    mkMovingAverageBuffer 0 = .error .zeroCapacity ∧
      (MovingAverageBuffer.push ⟨3, [0, 0, 0], 0, 0, 0⟩ 7).2 = 7 :=
  ⟨mkMovingAverageBuffer_zero_capacity.1,
    mkMovingAverageBuffer_zero_capacity.2 3 ⟨3, [0, 0, 0], 0, 0, 0⟩ rfl 7⟩

/-- C2: the memory-info reader extracts MemTotal from line 0, MemFree from
line 2, MemAvailable from line 4, SwapTotal from line 14, SwapFree from
line 16, CmaTotal from line 41 and CmaFree from line 43 of the memory-info
pseudo-file: on a fixture with at least 44 lines, each of the seven fields
is returned with exactly the integer value appearing on its stated line. -/
theorem meminfo_positional_extraction (file : List ProcLine) (e : ℕ)
    (h : 44 ≤ file.length) :
    get_ram_memory_utilization (some file) e =
      .ok ((file.get ⟨0, by omega⟩).2, (file.get ⟨2, by omega⟩).2,
        (file.get ⟨4, by omega⟩).2) ∧
    get_swap_memory_utilization (some file) e =
      .ok ((file.get ⟨14, by omega⟩).2, (file.get ⟨16, by omega⟩).2) ∧
    get_cma_utilization (some file) e =
      .ok ((file.get ⟨41, by omega⟩).2, (file.get ⟨43, by omega⟩).2) := by
  refine ⟨?_, ?_, ?_⟩ <;>
    simp only [get_ram_memory_utilization, get_swap_memory_utilization,
      get_cma_utilization, scan_line, skip_lines, List.get_eq_getElem] <;>
    rw [List.getD_eq_getElem _ _ (by omega), List.getD_eq_getElem _ _ (by omega)]
  rw [List.getD_eq_getElem _ _ (by omega)]

/-- Witness for C2 on a 44-line fixture whose line i carries value 100+i. -/
theorem meminfo_positional_extraction_witness :
    get_ram_memory_utilization (some memfixture) 2 = .ok (100, 102, 104) ∧
    get_swap_memory_utilization (some memfixture) 2 = .ok (114, 116) ∧
    get_cma_utilization (some memfixture) 2 = .ok (141, 143) :=
  meminfo_positional_extraction memfixture 2 (by decide)

/-- C6: for every cpu id, `get_stats` skips exactly `cpu_id + 1` lines of
the accounting table and then parses 8 whitespace-separated tokens — a
discarded label followed by the 7 counters stored in the fixed order user,
nice, system, idle, iowait, irq, softirq — and when the file cannot be
opened it returns the OS error instead. -/
theorem get_stats_positional_parse (pre : List StatLine) (lbl : String)
    (cnt : List ℕ) (post : List StatLine) (e cpu_id : ℕ)
    (hpre : pre.length = cpu_id + 1) :
    get_stats (some (pre ++ (lbl, cnt) :: post)) e cpu_id =
      .ok ⟨cnt.getD 0 0, cnt.getD 1 0, cnt.getD 2 0, cnt.getD 3 0,
        cnt.getD 4 0, cnt.getD 5 0, cnt.getD 6 0⟩ ∧
    get_stats none e cpu_id = .error e := by
  constructor
  · have hmid : (pre ++ (lbl, cnt) :: post).getD (0 + (cpu_id + 1)) ("", []) =
        (lbl, cnt) := by
      rw [Nat.zero_add, ← hpre, List.getD_eq_getElem?_getD,
        List.getElem?_append_right (Nat.le_refl _)]
      simp
    simp only [get_stats, skip_lines, hmid]
  · rfl

/-- Witness for C6: cpu id 0 on a two-line fixture (aggregate row then the
cpu0 row), and the missing-file error path with errno 2. -/
theorem get_stats_positional_parse_witness :
    get_stats (some [("cpu", [7, 7, 7, 7, 7, 7, 7]),
        ("cpu0", [1, 2, 3, 4, 5, 6, 7])]) 2 0 =
      .ok ⟨1, 2, 3, 4, 5, 6, 7⟩ ∧
    get_stats none 2 0 = .error 2 :=
  get_stats_positional_parse [("cpu", [7, 7, 7, 7, 7, 7, 7])] "cpu0"
    [1, 2, 3, 4, 5, 6, 7] [] 2 0 rfl

/-- Helper: if device `j` is the first whose name file holds `name`, and
every name file up to `j` is readable, the scan started at any `i ≤ j`
returns `j`. -/
theorem hwmon_scan_found (fs : HwmonFs) (name : String) (n j : ℕ)
    (hj : j < n) (hhit : fs.nameFile j = some name)
    (hread : ∀ k, k ≤ j → fs.nameFile k ≠ none)
    (hmiss : ∀ k, k < j → fs.nameFile k ≠ some name) :
    ∀ i buf, i ≤ j → (hwmon_scan fs name n buf i).1 = (j : ℤ) := by
  suffices H : ∀ d i buf, j - i = d → i ≤ j →
      (hwmon_scan fs name n buf i).1 = (j : ℤ) by
    exact fun i buf hi => H (j - i) i buf rfl hi
  intro d
  induction d with
  | zero =>
    intro i buf hd hij
    have hij' : i = j := by omega
    subst hij'
    rw [hwmon_scan, if_pos hj]
    simp [read_char_sysfs_entry, hhit]
  | succ d ih =>
    intro i buf hd hij
    have hlt : i < j := by omega
    rw [hwmon_scan, if_pos (by omega : i < n)]
    cases hnf : fs.nameFile i with
    | none => exact absurd hnf (hread i (by omega))
    | some s =>
      have hneq : name ≠ s := fun hcontra => hmiss i hlt (hcontra ▸ hnf)
      simp only [read_char_sysfs_entry, hnf]
      rw [if_neg hneq]
      exact ih (i + 1) s (by omega) (by omega)

/-- Helper: if every name file in the remaining range is readable and none of
them holds `name`, the scan returns -1 after probing all `n` ids, whatever
the buffer holds. -/
theorem hwmon_scan_present_no_match (fs : HwmonFs) (name : String) (n : ℕ)
    (hmiss : ∀ k, k < n → ∃ s, fs.nameFile k = some s ∧ s ≠ name) :
    ∀ i buf, i ≤ n → hwmon_scan fs name n buf i = (-1, n) := by
  suffices H : ∀ d i buf, n - i = d → i ≤ n →
      hwmon_scan fs name n buf i = (-1, n) by
    exact fun i buf hi => H (n - i) i buf rfl hi
  intro d
  induction d with
  | zero =>
    intro i buf hd hin
    have hieq : i = n := by omega
    subst hieq
    rw [hwmon_scan, if_neg (by omega : ¬ i < i)]
  | succ d ih =>
    intro i buf hd hin
    have hlt : i < n := by omega
    rw [hwmon_scan, if_pos hlt]
    obtain ⟨s, hs, hsne⟩ := hmiss i hlt
    simp only [read_char_sysfs_entry, hs]
    rw [if_neg (fun hcontra => hsne hcontra.symm)]
    exact ih (i + 1) s (by omega) (by omega)

/-- Helper: if every name file is absent, the scan's buffer keeps its initial
contents; if that never equals the target, the scan probes all `n` ids and
returns -1. -/
theorem hwmon_scan_all_absent (fs : HwmonFs) (name : String) (n : ℕ)
    (habsent : ∀ k, fs.nameFile k = none) :
    ∀ i buf, i ≤ n → name ≠ buf → hwmon_scan fs name n buf i = (-1, n) := by
  suffices H : ∀ d i buf, n - i = d → i ≤ n → name ≠ buf →
      hwmon_scan fs name n buf i = (-1, n) by
    exact fun i buf hi hb => H (n - i) i buf rfl hi hb
  intro d
  induction d with
  | zero =>
    intro i buf hd hin _
    have hieq : i = n := by omega
    subst hieq
    rw [hwmon_scan, if_neg (by omega : ¬ i < i)]
  | succ d ih =>
    intro i buf hd hin hb
    have hlt : i < n := by omega
    rw [hwmon_scan, if_pos hlt]
    simp only [read_char_sysfs_entry, habsent i]
    rw [if_neg hb]
    exact ih (i + 1) buf (by omega) (by omega) hb

/-- Helper: every entry of a replicated "hwmon" directory listing passes the
`strstr` filter of `count_hwmon_reg_devices`. -/
theorem count_hwmon_replicate (m : ℕ) :
    count_hwmon_reg_devices ⟨some (List.replicate m "hwmon"), 0, fun _ => none⟩ =
      (m : ℤ) := by
  simp only [count_hwmon_reg_devices]
  induction m with
  | zero => rfl
  | succ m ih =>
    rw [List.replicate_succ]
    simp only [List.filter, List.length_cons] at ih ⊢
    split
    · simp only [List.length_cons]
      omega
    · next hfail => exact absurd (by simpa using hfail) (by decide)

/-- C7: for every target name and every directory state whose name files are
readable in the scanned range, `get_device_hwmon_id` scans ids 0, 1, ... up
to the device count minus one in increasing order, compares each read name
to the target exactly (case-sensitively), returns the first id whose name
matches, and returns -1 — a NotFound indicator, never an exception — when no
id in the range matches. -/
theorem get_device_hwmon_id_first_match (fs : HwmonFs) (name buf0 : String)
    (hnames : ∀ k, k < (count_hwmon_reg_devices fs).toNat →
      fs.nameFile k ≠ none) :
    (∀ j : ℕ, j < (count_hwmon_reg_devices fs).toNat →
      fs.nameFile j = some name →
      (∀ k, k < j → fs.nameFile k ≠ some name) →
      (get_device_hwmon_id fs name buf0).1 = (j : ℤ)) ∧
    ((∀ k, k < (count_hwmon_reg_devices fs).toNat →
        fs.nameFile k ≠ some name) →
      (get_device_hwmon_id fs name buf0).1 = -1) := by
  constructor
  · intro j hj hhit hmiss
    exact hwmon_scan_found fs name _ j hj hhit
      (fun k hk => hnames k (by omega)) hmiss 0 buf0 (by omega)
  · intro hmiss
    have h := hwmon_scan_present_no_match fs name
      (count_hwmon_reg_devices fs).toNat
      (fun k hk => by
        cases hnf : fs.nameFile k with
        | none => exact absurd hnf (hnames k hk)
        | some s =>
          exact ⟨s, rfl, fun hcontra => hmiss k hk (hcontra ▸ hnf)⟩)
      0 buf0 (by omega)
    unfold get_device_hwmon_id
    rw [h]

/-- Witness for C7 on the spec's synthetic directory set
{hwmon0: "foo", hwmon1: "ina260_u14"}: target "ina260_u14" resolves to id 1
and target "missing" yields -1. -/
theorem get_device_hwmon_id_first_match_witness :
    (get_device_hwmon_id hwmonFixture "ina260_u14" "").1 = 1 ∧
    (get_device_hwmon_id hwmonFixture "missing" "").1 = -1 :=
  ⟨(get_device_hwmon_id_first_match hwmonFixture "ina260_u14" ""
      (by decide)).1 1 (by decide) (by decide) (by decide),
    (get_device_hwmon_id_first_match hwmonFixture "missing" ""
      (by decide)).2 (by decide)⟩

/-- C10: when the hwmon root directory cannot be opened,
`count_hwmon_reg_devices` returns `errno` through the same integer channel
as the device count, so a caller receives a positive value indistinguishable
from a valid count (a directory with that many hwmon entries produces the
same return); `get_device_hwmon_id` then iterates over exactly that many
nonexistent device ids (ghost probe counter = errno) and reports -1, not the
I/O failure. -/
theorem count_hwmon_reg_devices_errno_conflation (fs : HwmonFs)
    (name buf0 : String) (hroot : fs.rootEntries = none)
    (habsent : ∀ k, fs.nameFile k = none) (hbuf : name ≠ buf0) :
    count_hwmon_reg_devices fs = (fs.errno : ℤ) ∧
    (∃ fs2 : HwmonFs, fs2.rootEntries ≠ none ∧
      count_hwmon_reg_devices fs2 = count_hwmon_reg_devices fs) ∧
    get_device_hwmon_id fs name buf0 = (-1, fs.errno) := by
  have hcount : count_hwmon_reg_devices fs = (fs.errno : ℤ) := by
    simp [count_hwmon_reg_devices, hroot]
  refine ⟨hcount, ⟨⟨some (List.replicate fs.errno "hwmon"), 0, fun _ => none⟩,
    by simp, by rw [count_hwmon_replicate, hcount]⟩, ?_⟩
  unfold get_device_hwmon_id
  rw [hwmon_scan_all_absent fs name (count_hwmon_reg_devices fs).toNat habsent
    0 buf0 (by omega) hbuf, hcount]
  simp

/-- Witness for C10 on a fixture whose hwmon root fails to open with
errno 2: the count comes back as 2 and the device lookup probes two
nonexistent ids before reporting -1. -/
theorem count_hwmon_reg_devices_errno_conflation_witness :
    count_hwmon_reg_devices hwmonAbsentFixture = 2 ∧
    (∃ fs2 : HwmonFs, fs2.rootEntries ≠ none ∧
      count_hwmon_reg_devices fs2 = count_hwmon_reg_devices hwmonAbsentFixture) ∧
    get_device_hwmon_id hwmonAbsentFixture "ina260_u14" "" = (-1, 2) :=
  count_hwmon_reg_devices_errno_conflation hwmonAbsentFixture "ina260_u14" ""
    rfl (fun _ => rfl) (by decide)

/-- Helper invariant for the ina260 sampling loop: after `k ≤ duration`
iterations, the shared cursor equals `k % duration`, the shared logical
length is `min (k+1) duration`, each array holds the first `k` pushed
samples at slots `0..k-1` (and `calloc` zeroes elsewhere), each running sum
is the sum of the first `k` samples, and the `i`-th reported average triple
is the cumulative average of the first `i+1` samples. -/
theorem ina_run_invariant (duration : ℕ) (p c v : ℕ → ℤ) (hd : 0 < duration) :
    ∀ k, k ≤ duration →
      (ina_run duration p c v k).1.pos = k % duration ∧
      (ina_run duration p c v k).1.len = min (k + 1) duration ∧
      ((ina_run duration p c v k).1.powerarr.length = duration ∧
        ∀ j, j < duration → (ina_run duration p c v k).1.powerarr.getD j 0 =
          if j < k then (p j).tdiv 1000 else 0) ∧
      ((ina_run duration p c v k).1.currarr.length = duration ∧
        ∀ j, j < duration → (ina_run duration p c v k).1.currarr.getD j 0 =
          if j < k then c j else 0) ∧
      ((ina_run duration p c v k).1.volarr.length = duration ∧
        ∀ j, j < duration → (ina_run duration p c v k).1.volarr.getD j 0 =
          if j < k then v j else 0) ∧
      (ina_run duration p c v k).1.power_sum =
        (∑ j in Finset.range k, (p j).tdiv 1000) ∧
      (ina_run duration p c v k).1.curr_sum = (∑ j in Finset.range k, c j) ∧
      (ina_run duration p c v k).1.vol_sum = (∑ j in Finset.range k, v j) ∧
      (ina_run duration p c v k).2.length = k ∧
      (∀ i, i < k → (ina_run duration p c v k).2.getD i (0, 0, 0) =
        ((∑ j in Finset.range (i + 1), (p j).tdiv 1000).tdiv ((i : ℤ) + 1),
          (∑ j in Finset.range (i + 1), c j).tdiv ((i : ℤ) + 1),
          (∑ j in Finset.range (i + 1), v j).tdiv ((i : ℤ) + 1))) := by
  intro k
  induction k with
  | zero =>
    intro _
    simp only [ina_run, ina_init]
    refine ⟨rfl, by omega, ⟨List.length_replicate _ _, ?_⟩,
      ⟨List.length_replicate _ _, ?_⟩, ⟨List.length_replicate _ _, ?_⟩,
      by simp, by simp, by simp, rfl, by omega⟩ <;>
      · intro j hj
        rw [List.getD_eq_getElem?_getD, List.getElem?_replicate, if_pos hj]
        simp
  | succ k ih =>
    intro hk1
    obtain ⟨hpos, hlen, ⟨hplen, hparr⟩, ⟨hclen, hcarr⟩, ⟨hvlen, hvarr⟩,
      hpsum, hcsum, hvsum, holen, hout⟩ := ih (by omega)
    have hkd : k < duration := by omega
    have hposk : (ina_run duration p c v k).1.pos = k := by
      rw [hpos, Nat.mod_eq_of_lt hkd]
    have hlenk : (ina_run duration p c v k).1.len = k + 1 := by
      rw [hlen]; omega
    have holdp : (ina_run duration p c v k).1.powerarr.getD k 0 = 0 := by
      rw [hparr k hkd]; simp
    have holdc : (ina_run duration p c v k).1.currarr.getD k 0 = 0 := by
      rw [hcarr k hkd]; simp
    have holdv : (ina_run duration p c v k).1.volarr.getD k 0 = 0 := by
      rw [hvarr k hkd]; simp
    simp only [ina_run, ina_step, movingAvg]
    refine ⟨?_, ?_, ⟨?_, ?_⟩, ⟨?_, ?_⟩, ⟨?_, ?_⟩, ?_, ?_, ?_, ?_, ?_⟩
    · rw [hposk]
      rcases Nat.lt_or_ge (k + 1) duration with hc | hc
      · rw [if_neg (by omega), Nat.mod_eq_of_lt hc]
      · rw [if_pos (by omega)]
        have hde : k + 1 = duration := by omega
        rw [hde, Nat.mod_self]
    · rw [hlenk]
      split <;> omega
    · rw [List.length_set, hplen]
    · intro j hj
      rw [hposk, List.getD_eq_getElem?_getD, List.getElem?_set]
      by_cases hjk : k = j
      · subst hjk
        rw [if_pos rfl, if_pos (by rw [hplen]; omega)]
        simp only [Option.getD_some]
        rw [if_pos (by omega)]
      · rw [if_neg hjk, ← List.getD_eq_getElem?_getD, hparr j hj]
        by_cases hjk2 : j < k
        · rw [if_pos hjk2, if_pos (by omega)]
        · rw [if_neg hjk2, if_neg (by omega)]
    · rw [List.length_set, hclen]
    · intro j hj
      rw [hposk, List.getD_eq_getElem?_getD, List.getElem?_set]
      by_cases hjk : k = j
      · subst hjk
        rw [if_pos rfl, if_pos (by rw [hclen]; omega)]
        simp only [Option.getD_some]
        rw [if_pos (by omega)]
      · rw [if_neg hjk, ← List.getD_eq_getElem?_getD, hcarr j hj]
        by_cases hjk2 : j < k
        · rw [if_pos hjk2, if_pos (by omega)]
        · rw [if_neg hjk2, if_neg (by omega)]
    · rw [List.length_set, hvlen]
    · intro j hj
      rw [hposk, List.getD_eq_getElem?_getD, List.getElem?_set]
      by_cases hjk : k = j
      · subst hjk
        rw [if_pos rfl, if_pos (by rw [hvlen]; omega)]
        simp only [Option.getD_some]
        rw [if_pos (by omega)]
      · rw [if_neg hjk, ← List.getD_eq_getElem?_getD, hvarr j hj]
        by_cases hjk2 : j < k
        · rw [if_pos hjk2, if_pos (by omega)]
        · rw [if_neg hjk2, if_neg (by omega)]
    · rw [hposk, holdp, hpsum, Finset.sum_range_succ]
      ring
    · rw [hposk, holdc, hcsum, Finset.sum_range_succ]
      ring
    · rw [hposk, holdv, hvsum, Finset.sum_range_succ]
      ring
    · rw [List.length_append, holen]
      rfl
    · intro i hik1
      by_cases hik : i < k
      · rw [List.getD_append _ _ _ _ (by rw [holen]; omega)]
        exact hout i hik
      · have hieq : i = k := by omega
        subst hieq
        rw [List.getD_eq_getElem?_getD,
          List.getElem?_append_right (by rw [holen])]
        rw [holen, Nat.sub_self]
        simp only [List.getElem?_cons_zero, Option.getD_some]
        rw [hposk, hlenk, holdp, holdc, holdv, hpsum, hcsum, hvsum,
          Finset.sum_range_succ, Finset.sum_range_succ, Finset.sum_range_succ]
        push_cast
        simp [sub_zero]

/-- C9: in the `print_ina260_power_info` loop the three moving-average
buffers share one write cursor and one logical length, each has capacity
`duration`, and the loop performs exactly `duration` insertions, so within a
single invocation no sample is ever evicted — after the full run slot `i` of
each array still holds sample `i` — and the `i`-th reported average triple
is the cumulative (truncating) average of all samples taken so far. -/
theorem ina260_cumulative_averages (duration : ℕ) (p c v : ℕ → ℤ) (i : ℕ)
    (hi : i < duration) :
    (ina_run duration p c v duration).2.getD i (0, 0, 0) =
      ((∑ j in Finset.range (i + 1), (p j).tdiv 1000).tdiv ((i : ℤ) + 1),
        (∑ j in Finset.range (i + 1), c j).tdiv ((i : ℤ) + 1),
        (∑ j in Finset.range (i + 1), v j).tdiv ((i : ℤ) + 1)) ∧
    (ina_run duration p c v duration).1.powerarr.getD i 0 = (p i).tdiv 1000 ∧
    (ina_run duration p c v duration).1.currarr.getD i 0 = c i ∧
    (ina_run duration p c v duration).1.volarr.getD i 0 = v i ∧
    (ina_run duration p c v duration).1.len = duration ∧
    (ina_run duration p c v duration).2.length = duration := by
  have hd : 0 < duration := by omega
  obtain ⟨hpos, hlen, ⟨hplen, hparr⟩, ⟨hclen, hcarr⟩, ⟨hvlen, hvarr⟩, hpsum,
    hcsum, hvsum, holen, hout⟩ :=
    ina_run_invariant duration p c v hd duration (le_refl duration)
  refine ⟨hout i hi, ?_, ?_, ?_, ?_, holen⟩
  · rw [hparr i hi, if_pos hi]
  · rw [hcarr i hi, if_pos hi]
  · rw [hvarr i hi, if_pos hi]
  · rw [hlen]; omega

/-- Witness for C9: a two-iteration run with power samples 1000 and 2000
microwatts (pushed as 1 and 2 after the /1000 scaling), currents 10 and 20,
voltages 4 and 8; the second reported triple is the cumulative averages
(1, 15, 6), the shared length saturates at 2, and 2 triples are printed. -/
theorem ina260_cumulative_averages_witness :
    (ina_run 2 (fun j => 1000 * ((j : ℤ) + 1)) (fun j => 10 * ((j : ℤ) + 1))
        (fun j => 4 * ((j : ℤ) + 1)) 2).2.getD 1 (0, 0, 0) = (1, 15, 6) ∧
    (ina_run 2 (fun j => 1000 * ((j : ℤ) + 1)) (fun j => 10 * ((j : ℤ) + 1))
        (fun j => 4 * ((j : ℤ) + 1)) 2).1.len = 2 ∧
    (ina_run 2 (fun j => 1000 * ((j : ℤ) + 1)) (fun j => 10 * ((j : ℤ) + 1))
        (fun j => 4 * ((j : ℤ) + 1)) 2).2.length = 2 := by
  have h := ina260_cumulative_averages 2 (fun j => 1000 * ((j : ℤ) + 1))
    (fun j => 10 * ((j : ℤ) + 1)) (fun j => 4 * ((j : ℤ) + 1)) 1 (by omega)
  exact ⟨h.1.trans (by decide), h.2.2.2.2.1, h.2.2.2.2.2⟩
